import Mathlib

/-!
Verification of the peer-discovery service (`base/discovery/service.go`)
of the `noise` peer-to-peer overlay network.

The discovery `Service` itself (`ReceiveHandler`, `receive`,
`PeerDisconnect`, `makeMessageBody`) is embedded directly from the Go
source.  Its collaborators — the `dht.RoutingTable`, the `FindNode`
lookup engine, the protobuf payload codec, the opcode constants and the
service tag — live in other packages of the repository whose sources are
not available here; those are modelled from the specification, each with
a doc comment saying so.
-/

deriving instance DecidableEq for Except

namespace Noise

/-- Identity bytes / payload bytes, modelled as lists of naturals. -/
abbrev Bytes := List Nat

/-- `peer.ID`: a node identity, a pair of network address and identity
bytes.  Equality of identities is by identity bytes; the address is used
only for transport lookup. -/
structure PeerID where
  Address : String
  Id : Bytes
deriving DecidableEq, Repr

/-- Big-endian interpretation of a byte sequence as an unsigned integer. -/
def bytesToNat : Bytes → Nat
  | [] => 0
  | b :: bs => b * 256 ^ bs.length + bytesToNat bs

/-- Modelled from the spec: the XOR distance metric,
`distance(a,b) = a XOR b` on identity bytes treated as an unsigned
integer; smaller values mean closer identities. -/
def xorDist (a b : Bytes) : Nat :=
  bytesToNat (List.zipWith Nat.xor a b)

/-- Lexicographic comparison of identity bytes, the deterministic
tie-break for equal XOR distance. -/
def bytesLe : Bytes → Bytes → Bool
  | [], _ => true
  | _ :: _, [] => false
  | a :: as, b :: bs => if a < b then true else if b < a then false else bytesLe as bs

/-- `closerThan t a b`: peer `a` sorts no later than peer `b` relative to
target `t` — strictly smaller XOR distance to `t`, or equal distance and
identity bytes lexicographically no greater. -/
def closerThan (t a b : PeerID) : Bool :=
  let da := xorDist a.Id t.Id
  let db := xorDist b.Id t.Id
  if da < db then true
  else if db < da then false
  else bytesLe a.Id b.Id

/-- The ordering relation on peers induced by `closerThan` for a fixed
target: non-decreasing XOR distance, ties broken by identity-byte order. -/
def closerRel (t : PeerID) : PeerID → PeerID → Prop :=
  fun a b => closerThan t a b = true

instance (t : PeerID) : DecidableRel (closerRel t) :=
  fun _ _ => inferInstanceAs (Decidable (_ = true))

theorem bytesLe_total (a b : Bytes) : bytesLe a b = true ∨ bytesLe b a = true := by
  induction a generalizing b with
  | nil => left; rfl
  | cons x xs ih =>
    cases b with
    | nil => right; rfl
    | cons y ys =>
      rcases Nat.lt_trichotomy x y with h | h | h
      · left; simp [bytesLe, h]
      · subst h
        rcases ih ys with h' | h'
        · left; simp [bytesLe, h', Nat.lt_irrefl]
        · right; simp [bytesLe, h', Nat.lt_irrefl]
      · right; simp [bytesLe, h]

theorem bytesLe_trans {a b c : Bytes} (hab : bytesLe a b = true)
    (hbc : bytesLe b c = true) : bytesLe a c = true := by
  induction a generalizing b c with
  | nil => rfl
  | cons x xs ih =>
    cases b with
    | nil => simp [bytesLe] at hab
    | cons y ys =>
      cases c with
      | nil => simp [bytesLe] at hbc
      | cons z zs =>
        simp only [bytesLe] at hab hbc ⊢
        rcases Nat.lt_trichotomy x y with hxy | hxy | hxy
        · rcases Nat.lt_trichotomy y z with hyz | hyz | hyz
          · simp [Nat.lt_trans hxy hyz]
          · subst hyz; simp [hxy]
          · simp [hyz, Nat.lt_asymm hyz] at hbc
        · subst hxy
          rcases Nat.lt_trichotomy x z with hxz | hxz | hxz
          · simp [hxz]
          · subst hxz
            simp only [Nat.lt_irrefl, if_false] at hab hbc ⊢
            exact ih hab hbc
          · simp [hxz, Nat.lt_asymm hxz] at hbc
        · simp [hxy, Nat.lt_asymm hxy] at hab

theorem closerRel_total (t : PeerID) (a b : PeerID) :
    closerRel t a b ∨ closerRel t b a := by
  unfold closerRel closerThan
  rcases Nat.lt_trichotomy (xorDist a.Id t.Id) (xorDist b.Id t.Id) with h | h | h
  · left; simp [h]
  · rw [h]
    rcases bytesLe_total a.Id b.Id with h' | h'
    · left; simp [h']
    · right; simp [h']
  · right; simp [h]

theorem closerRel_trans (t : PeerID) {a b c : PeerID}
    (hab : closerRel t a b) (hbc : closerRel t b c) : closerRel t a c := by
  unfold closerRel closerThan at *
  rcases Nat.lt_trichotomy (xorDist a.Id t.Id) (xorDist b.Id t.Id) with h1 | h1 | h1
  · rcases Nat.lt_trichotomy (xorDist b.Id t.Id) (xorDist c.Id t.Id) with h2 | h2 | h2
    · simp [Nat.lt_trans h1 h2]
    · rw [← h2]; simp [h1]
    · simp [h2, Nat.lt_asymm h2] at hbc
  · rcases Nat.lt_trichotomy (xorDist b.Id t.Id) (xorDist c.Id t.Id) with h2 | h2 | h2
    · rw [h1]; simp [h2]
    · rw [h1] at hab
      rw [h2] at hbc
      rw [h1, h2]
      simp only [Nat.lt_irrefl, if_false] at hab hbc ⊢
      exact bytesLe_trans hab hbc
    · simp [h2, Nat.lt_asymm h2] at hbc
  · simp [h1, Nat.lt_asymm h1] at hab

instance closerRelIsTotal (t : PeerID) : IsTotal PeerID (closerRel t) :=
  ⟨closerRel_total t⟩

instance closerRelIsTrans (t : PeerID) : IsTrans PeerID (closerRel t) :=
  ⟨fun _ _ _ => closerRel_trans t⟩

/-- Modelled from the spec: `dht.RoutingTable` (package `dht`, not under
`src/`).  It holds the known peer identities relative to the local node;
per the spec's invariant the local identity is never a member.  The
member list is kept in recency order (most recently seen last); bucket
grouping and eviction are the collaborator's own policy and are not
re-specified, so the model keeps a single unbounded list. -/
structure RoutingTable where
  self : PeerID
  peers : List PeerID
deriving DecidableEq, Repr

namespace RoutingTable

/-- Modelled from the spec: `dht.CreateRoutingTable(selfID)` —
create-for-self; the table starts with no members. -/
def CreateRoutingTable (selfID : PeerID) : RoutingTable :=
  ⟨selfID, []⟩

/-- Modelled from the spec: `RoutingTable.Self()`. -/
def Self (rt : RoutingTable) : PeerID := rt.self

/-- Modelled from the spec: `RoutingTable.Update(peerID)` — idempotent
insert-or-refresh.  The local identity is never inserted; refreshing an
existing member renews its recency (moves it to the most-recent end),
recency being the collaborator's policy for keeping the table live. -/
def Update (rt : RoutingTable) (p : PeerID) : RoutingTable :=
  if p.Id = rt.self.Id then rt
  else { rt with peers := rt.peers.filter (fun q => q.Id ≠ p.Id) ++ [p] }

/-- Modelled from the spec: `RoutingTable.PeerExists(peerID)` —
membership by identity bytes. -/
def PeerExists (rt : RoutingTable) (p : PeerID) : Bool :=
  rt.peers.any (fun q => q.Id = p.Id)

/-- Modelled from the spec: `RoutingTable.RemovePeer(peerID)`. -/
def RemovePeer (rt : RoutingTable) (p : PeerID) : RoutingTable :=
  { rt with peers := rt.peers.filter (fun q => q.Id ≠ p.Id) }

/-- Modelled from the spec: `RoutingTable.LookupRemoteAddress(address)`
— lookup-by-address over the table's members, returning the stored
`peer.ID` when found.  (Per the spec's open design note, a message
addressed to an identity the table does not hold — including
first-contact traffic — fails to resolve.) -/
def LookupRemoteAddress (rt : RoutingTable) (address : String) : Option PeerID :=
  rt.peers.find? (fun q => q.Address = address)

/-- Modelled from the spec: `RoutingTable.FindClosestPeers(target, count)`
— the `count` nearest known peers to `target`, nearest first: sorted by
non-decreasing XOR distance to the target with ties broken by
identity-byte order. -/
def FindClosestPeers (rt : RoutingTable) (target : PeerID) (count : Nat) : List PeerID :=
  (List.insertionSort (closerRel target) rt.peers).take count

/-- Modelled from the spec: `RoutingTable.GetPeerAddresses()`. -/
def GetPeerAddresses (rt : RoutingTable) : List String :=
  rt.peers.map PeerID.Address

end RoutingTable

/-- Modelled from the spec: `dht.BucketSize`, the fixed per-bucket
capacity K; the spec fixes no numeric value, Kademlia implementations
commonly use 16. -/
def BucketSize : Nat := 16

/-! ### The payload codec (`internal/protobuf`, modelled from the spec)

The spec requires a structured binary record format, version-stable,
encoding `Pong` (like `Ping`) as an empty record and a
`LookupNodeResponse` as an ordered sequence of {address, identity bytes}
pairs, but prescribes no byte layout.  The model fixes one canonical
injective layout with length-prefixed fields. -/

/-- Modelled from the spec: the typed content of a decoded discovery
payload — an empty record (`Ping{}` / `Pong{}`) or a
`LookupNodeResponse` peer sequence. -/
inductive ProtoContent where
  | empty : ProtoContent
  | nodes (peers : List PeerID) : ProtoContent
deriving DecidableEq, Repr

/-- Modelled from the spec: `protobuf.Message`, the internal
{opcode, typed fields} record a payload decodes into. -/
structure ProtoMessage where
  Opcode : Nat
  Content : ProtoContent
deriving DecidableEq, Repr

/-- A byte sequence prefixed with its own length. -/
def encodeLenBytes (bs : Bytes) : Bytes := bs.length :: bs

def stringToBytes (s : String) : Bytes := s.data.map Char.toNat

def bytesToString (bs : Bytes) : String := String.mk (bs.map Char.ofNat)

def encodePeer (p : PeerID) : Bytes :=
  encodeLenBytes (stringToBytes p.Address) ++ encodeLenBytes p.Id

def encodeContent : ProtoContent → Bytes
  | .empty => [0]
  | .nodes ps => 1 :: ps.length :: (ps.map encodePeer).flatten

/-- Modelled from the spec: `proto.Marshal` on a `protobuf.Message` — a
canonical injective binary layout: the opcode followed by the encoded
content record. -/
def encodeProto (m : ProtoMessage) : Bytes :=
  m.Opcode :: encodeContent m.Content

/-- Read one length-prefixed field, returning it and the remainder. -/
def readLenBytes : Bytes → Option (Bytes × Bytes)
  | [] => none
  | n :: rest => if n ≤ rest.length then some (rest.take n, rest.drop n) else none

def decodePeer (bs : Bytes) : Option (PeerID × Bytes) :=
  match readLenBytes bs with
  | none => none
  | some (addr, rest) =>
    match readLenBytes rest with
    | none => none
    | some (idBytes, rest2) => some (⟨bytesToString addr, idBytes⟩, rest2)

def decodePeers : Nat → Bytes → Option (List PeerID × Bytes)
  | 0, bs => some ([], bs)
  | n + 1, bs =>
    match decodePeer bs with
    | none => none
    | some (p, rest) =>
      match decodePeers n rest with
      | none => none
      | some (ps, rest2) => some (p :: ps, rest2)

def decodeContent : Bytes → Option ProtoContent
  | [0] => some .empty
  | 1 :: n :: rest =>
    match decodePeers n rest with
    | some (ps, []) => some (.nodes ps)
    | _ => none
  | _ => none

/-- Modelled from the spec: `proto.Unmarshal` of a discovery payload into
a `protobuf.Message`; returns `none` on a malformed payload (the decode
failure condition). -/
def decodeProto : Bytes → Option ProtoMessage
  | [] => none
  | op :: rest =>
    match decodeContent rest with
    | none => none
    | some c => some ⟨op, c⟩

theorem readLenBytes_encode (bs r : Bytes) :
    readLenBytes (encodeLenBytes bs ++ r) = some (bs, r) := by
  simp [readLenBytes, encodeLenBytes, List.take_left, List.drop_left]

theorem bytesToString_stringToBytes (s : String) :
    bytesToString (stringToBytes s) = s := by
  cases s with
  | mk data =>
    simp only [bytesToString, stringToBytes, List.map_map]
    congr 1
    refine List.map_congr_left ?_ |>.trans (List.map_id _)
    intro c _
    exact Char.ofNat_toNat c

theorem decodePeer_encode (p : PeerID) (r : Bytes) :
    decodePeer (encodePeer p ++ r) = some (p, r) := by
  simp [decodePeer, encodePeer, List.append_assoc, readLenBytes_encode,
    bytesToString_stringToBytes]

theorem decodePeers_encode (ps : List PeerID) (r : Bytes) :
    decodePeers ps.length ((ps.map encodePeer).flatten ++ r) = some (ps, r) := by
  induction ps with
  | nil => simp [decodePeers]
  | cons p ps ih =>
    simp [decodePeers, List.append_assoc, decodePeer_encode, ih]

theorem decodeContent_encode (c : ProtoContent) :
    decodeContent (encodeContent c) = some c := by
  cases c with
  | empty => rfl
  | nodes ps =>
    have h := decodePeers_encode ps []
    simp only [List.append_nil] at h
    simp [decodeContent, encodeContent, h]

/-- The canonical payload layout round-trips: decoding an encoded
`protobuf.Message` recovers it. -/
theorem decodeProto_encode (m : ProtoMessage) :
    decodeProto (encodeProto m) = some m := by
  simp [decodeProto, encodeProto, decodeContent_encode]

/-! ### Protocol constants and message envelope -/

/-- Modelled from the spec: the four discovery opcodes, encoded as small
stable integers in one canonical enumeration (the spec prescribes the
enumeration, not the numeric values). -/
def opCodePing : Nat := 0

/-- Modelled from the spec: the liveness-acknowledgment opcode. -/
def opCodePong : Nat := 1

/-- Modelled from the spec: the neighbor-lookup request opcode. -/
def opCodeLookupRequest : Nat := 2

/-- Modelled from the spec: the neighbor-lookup response opcode. -/
def opCodeLookupResponse : Nat := 3

/-- Modelled from the spec: the fixed service tag distinguishing this
protocol's payloads from other services sharing the transport. -/
def DiscoveryServiceID : Nat := 5

/-- `protocol.MessageBody`: service tag, plus the opaque encoded payload
record.  (The Go struct's further fields play no part in discovery.) -/
structure MessageBody where
  Service : Nat
  Payload : Bytes
deriving DecidableEq, Repr

/-- `protocol.Message`: the envelope — sender address, recipient
address, and an optional body (`nil` in Go). -/
structure Message where
  Sender : String
  Recipient : String
  Body : Option MessageBody
deriving DecidableEq, Repr

/-- The error taxonomy of the entry point, one constructor per distinct
error the Go code returns: "Message is corrupt", "Message body is
missing", "Unable to lookup sender", "Unable to lookup recipient",
"Unable to parse message", and "Unknown message opcode type: %d" (the
last carries the offending opcode value). -/
inductive DiscoveryError where
  | corruptMessage
  | missingPayload
  | unresolvedSender
  | unresolvedRecipient
  | decodeFailure
  | unknownOpcode (op : Nat)
deriving DecidableEq, Repr

/-! ### The lookup engine (`discovery.FindNode`, modelled from the spec) -/

/-- Modelled from the spec: the Transport/SendHandler contract
`function(targetPeerID, opcode, payloadBytes) → reply-or-failure`,
specialized to the one exchange the lookup engine performs: a
LookupRequest whose reply carries a peer sequence, or failure. -/
def SendHandler := PeerID → Option (List PeerID)

/-- Peers sorted nearest-first relative to a target: non-decreasing XOR
distance, ties broken by identity-byte order. -/
def sortCloser (t : PeerID) (ps : List PeerID) : List PeerID :=
  List.insertionSort (closerRel t) ps

/-- The XOR distance of the closest candidate to the target (0 when
there are no candidates). -/
def bestDistTo (t : PeerID) (ps : List PeerID) : Nat :=
  match sortCloser t ps with
  | [] => 0
  | p :: _ => xorDist p.Id t.Id

/-- State of an iterative lookup: identities already queried, and the
candidate set (deduplicated by identity bytes). -/
structure LookupState where
  queried : List Bytes
  candidates : List PeerID

/-- Merge newly discovered peers into the candidate set, deduplicating
by identity bytes; new entries join at the end (unqueried). -/
def mergeCandidates (cands newPeers : List PeerID) : List PeerID :=
  newPeers.foldl
    (fun acc p => if acc.any (fun q => q.Id = p.Id) then acc else acc ++ [p]) cands

/-- One lookup round: select up to `alpha` closest-to-target unqueried
candidates, query each through the send function (a failed send
contributes no peers), mark them queried, and merge every reply into the
candidate set. -/
def lookupRound (send : SendHandler) (t : PeerID) (alpha : Nat)
    (st : LookupState) : LookupState :=
  let batch :=
    ((sortCloser t st.candidates).filter
      (fun c => ¬ st.queried.any (fun q => q = c.Id))).take alpha
  let replies := (batch.map (fun p => (send p).getD [])).flatten
  ⟨st.queried ++ batch.map PeerID.Id, mergeCandidates st.candidates replies⟩

/-- The iterative loop: repeat rounds until every known candidate has
been queried or a round brings no candidate strictly closer than the
previously best-known one.  The loop continues only while the best
distance (a natural number) strictly decreases, so a fuel of the initial
best distance + 1 never runs out; `fuel` makes that termination measure
explicit. -/
def lookupLoop (send : SendHandler) (t : PeerID) (alpha : Nat) :
    Nat → LookupState → List PeerID
  | 0, st => st.candidates
  | fuel + 1, st =>
    let batch :=
      ((sortCloser t st.candidates).filter
        (fun c => ¬ st.queried.any (fun q => q = c.Id))).take alpha
    if batch.isEmpty then st.candidates
    else
      let st' := lookupRound send t alpha st
      if bestDistTo t st'.candidates < bestDistTo t st.candidates then
        lookupLoop send t alpha fuel st'
      else st'.candidates

/-- Modelled from the spec: `discovery.FindNode(routes, sendHandler,
target, count, alpha)` — the iterative nearest-node search.  Seed the
candidates with the `count` nearest known peers to the target, run
bounded-concurrency rounds to convergence, and return the final `count`
nearest-to-target peers, nearest first. -/
def FindNode (routes : RoutingTable) (send : SendHandler) (target : PeerID)
    (count alpha : Nat) : List PeerID :=
  let seed := routes.FindClosestPeers target count
  let result := lookupLoop send target alpha (bestDistTo target seed + 1) ⟨[], seed⟩
  (sortCloser target result).take count

/-! ### The discovery service (embedded from `base/discovery/service.go`) -/

/-- `discovery.Service`: per-category disable flags, the routing table,
and the send handler. -/
structure Service where
  DisablePing : Bool
  DisablePong : Bool
  DisableLookup : Bool
  Routes : RoutingTable
  sendHandler : SendHandler

/-- `discovery.NewService(sendHandler, selfID)`. -/
def NewService (sendHandler : SendHandler) (selfID : PeerID) : Service :=
  { DisablePing := false
    DisablePong := false
    DisableLookup := false
    Routes := RoutingTable.CreateRoutingTable selfID
    sendHandler := sendHandler }

/-- `toProtobufMessage(opcode, content)` builds the internal record; the
modelled inner marshalling is total, so no serialization failure arises. -/
def toProtobufMessage (opcode : Nat) (content : ProtoContent) : ProtoMessage :=
  ⟨opcode, content⟩

/-- `makeMessageBody(opcode, content)`: marshal the record and wrap it in
a `MessageBody` tagged with the discovery service tag.  (In Go this
returns `(body, error)`; with the modelled total marshaller the error
branch is unreachable, so the body is returned directly.) -/
def makeMessageBody (opcode : Nat) (content : ProtoContent) : MessageBody :=
  ⟨DiscoveryServiceID, encodeProto (toProtobufMessage opcode content)⟩

/-- `Service.receive(sender, target, msg)`: update the routes on every
message, then dispatch on the opcode.  Returns the optional reply body or
an error, paired with the resulting routing table (Go mutates
`s.Routes` in place). -/
def Service.receive (s : Service) (sender target : PeerID) (msg : ProtoMessage) :
    Except DiscoveryError (Option MessageBody) × RoutingTable :=
  let routes := s.Routes.Update sender
  if msg.Opcode = opCodePing then
    if s.DisablePing then (.ok none, routes)
    else (.ok (some (makeMessageBody opCodePong ProtoContent.empty)), routes)
  else if msg.Opcode = opCodePong then
    if s.DisablePong then (.ok none, routes)
    else
      let peers := FindNode routes s.sendHandler sender BucketSize 8
      (.ok none, peers.foldl (fun rt p => rt.Update p) routes)
  else if msg.Opcode = opCodeLookupRequest then
    if s.DisableLookup then (.ok none, routes)
    else
      let response := ProtoContent.nodes (routes.FindClosestPeers target BucketSize)
      (.ok (some (makeMessageBody opCodeLookupResponse response)), routes)
  else (.error (.unknownOpcode msg.Opcode), routes)

/-- `Service.ReceiveHandler(message)`: the inbound entry point — validate
the envelope, body, service tag and payload, resolve sender and
recipient through the routing table, decode the payload, and delegate to
the dispatch step.  Returns the optional reply or the error, paired with
the resulting routing table. -/
def Service.ReceiveHandler (s : Service) (message : Option Message) :
    Except DiscoveryError (Option MessageBody) × RoutingTable :=
  match message with
  | none => (.error .corruptMessage, s.Routes)
  | some m =>
    match m.Body with
    | none => (.error .corruptMessage, s.Routes)
    | some body =>
      if body.Service ≠ DiscoveryServiceID then (.error .corruptMessage, s.Routes)
      else if body.Payload.length = 0 then (.error .missingPayload, s.Routes)
      else
        match s.Routes.LookupRemoteAddress m.Sender with
        | none => (.error .unresolvedSender, s.Routes)
        | some sender =>
          match s.Routes.LookupRemoteAddress m.Recipient with
          | none => (.error .unresolvedRecipient, s.Routes)
          | some target =>
            match decodeProto body.Payload with
            | none => (.error .decodeFailure, s.Routes)
            | some msg => s.receive sender target msg

/-- `Service.PeerDisconnect(target)`: delete the peer if it is in the
routing table, otherwise do nothing.  The Go function returns no error
value at all; the model returns the resulting routing table. -/
def Service.PeerDisconnect (s : Service) (target : PeerID) : RoutingTable :=
  if s.Routes.PeerExists target then s.Routes.RemovePeer target
  else s.Routes

/-! ### Helper lemmas -/

theorem RoutingTable.self_Update (rt : RoutingTable) (p : PeerID) :
    (rt.Update p).self = rt.self := by
  unfold RoutingTable.Update
  split <;> rfl

theorem RoutingTable.PeerExists_Update_self (rt : RoutingTable) (p : PeerID)
    (h : p.Id ≠ rt.self.Id) : (rt.Update p).PeerExists p = true := by
  unfold RoutingTable.Update RoutingTable.PeerExists
  simp [h, List.any_eq_true]

theorem RoutingTable.PeerExists_Update_of (rt : RoutingTable) (p q : PeerID)
    (h : rt.PeerExists q = true) : (rt.Update p).PeerExists q = true := by
  unfold RoutingTable.Update RoutingTable.PeerExists at *
  split
  · exact h
  · simp only [List.any_eq_true, decide_eq_true_eq] at h ⊢
    obtain ⟨w, hw, hid⟩ := h
    by_cases hpq : q.Id = p.Id
    · exact ⟨p, by simp, hpq.symm⟩
    · exact ⟨w,
        List.mem_append.mpr (Or.inl (List.mem_filter.mpr ⟨hw, by simp [hid, hpq]⟩)),
        hid⟩

theorem RoutingTable.self_foldl_Update (ps : List PeerID) (rt : RoutingTable) :
    (ps.foldl (fun rt p => rt.Update p) rt).self = rt.self := by
  induction ps generalizing rt with
  | nil => rfl
  | cons p ps ih => simp [List.foldl_cons, ih, RoutingTable.self_Update]

theorem RoutingTable.PeerExists_foldl_Update_of (ps : List PeerID)
    (rt : RoutingTable) (q : PeerID) (h : rt.PeerExists q = true) :
    ((ps.foldl (fun rt p => rt.Update p) rt).PeerExists q) = true := by
  induction ps generalizing rt with
  | nil => exact h
  | cons p ps ih =>
    exact ih _ (RoutingTable.PeerExists_Update_of _ _ _ h)

theorem RoutingTable.PeerExists_foldl_Update_mem (ps : List PeerID)
    (rt : RoutingTable) (p : PeerID) (hmem : p ∈ ps) (hself : p.Id ≠ rt.self.Id) :
    ((ps.foldl (fun rt p => rt.Update p) rt).PeerExists p) = true := by
  induction ps generalizing rt with
  | nil => cases hmem
  | cons a ps ih =>
    rcases List.mem_cons.mp hmem with h | h
    · subst h
      rw [List.foldl_cons]
      exact RoutingTable.PeerExists_foldl_Update_of ps (rt.Update p) p
        (RoutingTable.PeerExists_Update_self rt p hself)
    · rw [List.foldl_cons]
      exact ih (rt.Update a) h (by rw [RoutingTable.self_Update]; exact hself)

theorem decodeProto_ne_nil {bs : Bytes} {pm : ProtoMessage}
    (h : decodeProto bs = some pm) : bs.length ≠ 0 := by
  intro hlen
  rw [List.length_eq_zero.mp hlen] at h
  simp [decodeProto] at h

/-- Reduction of the entry point to the dispatch step once every
validation step succeeds. -/
theorem ReceiveHandler_resolve (s : Service) (m : Message) (body : MessageBody)
    (sender target : PeerID) (pm : ProtoMessage)
    (hbody : m.Body = some body)
    (hsvc : body.Service = DiscoveryServiceID)
    (hsender : s.Routes.LookupRemoteAddress m.Sender = some sender)
    (htarget : s.Routes.LookupRemoteAddress m.Recipient = some target)
    (hdec : decodeProto body.Payload = some pm) :
    s.ReceiveHandler (some m) = s.receive sender target pm := by
  simp [Service.ReceiveHandler, hbody, hsvc, hsender, htarget, hdec,
    decodeProto_ne_nil hdec]

theorem receive_ping (s : Service) (sender target : PeerID) (pm : ProtoMessage)
    (hop : pm.Opcode = opCodePing) (hdis : s.DisablePing = false) :
    s.receive sender target pm =
      (.ok (some (makeMessageBody opCodePong ProtoContent.empty)),
        s.Routes.Update sender) := by
  simp [Service.receive, hop, hdis]

theorem receive_pong (s : Service) (sender target : PeerID) (pm : ProtoMessage)
    (hop : pm.Opcode = opCodePong) (hdis : s.DisablePong = false) :
    s.receive sender target pm =
      (.ok none,
        (FindNode (s.Routes.Update sender) s.sendHandler sender BucketSize 8).foldl
          (fun rt p => rt.Update p) (s.Routes.Update sender)) := by
  simp [Service.receive, hop, hdis, opCodePing, opCodePong]

theorem receive_lookup (s : Service) (sender target : PeerID) (pm : ProtoMessage)
    (hop : pm.Opcode = opCodeLookupRequest) (hdis : s.DisableLookup = false) :
    s.receive sender target pm =
      (.ok (some (makeMessageBody opCodeLookupResponse
          (ProtoContent.nodes ((s.Routes.Update sender).FindClosestPeers target BucketSize)))),
        s.Routes.Update sender) := by
  simp [Service.receive, hop, hdis, opCodePing, opCodePong, opCodeLookupRequest]

theorem receive_default (s : Service) (sender target : PeerID) (pm : ProtoMessage)
    (h1 : pm.Opcode ≠ opCodePing) (h2 : pm.Opcode ≠ opCodePong)
    (h3 : pm.Opcode ≠ opCodeLookupRequest) :
    s.receive sender target pm =
      (.error (.unknownOpcode pm.Opcode), s.Routes.Update sender) := by
  simp [Service.receive, h1, h2, h3]

theorem FindClosestPeers_length (rt : RoutingTable) (t : PeerID) (c : Nat) :
    (rt.FindClosestPeers t c).length = min c rt.peers.length := by
  simp [RoutingTable.FindClosestPeers]

theorem FindClosestPeers_sorted (rt : RoutingTable) (t : PeerID) (c : Nat) :
    List.Sorted (closerRel t) (rt.FindClosestPeers t c) :=
  List.Pairwise.sublist (List.take_sublist c _)
    (List.sorted_insertionSort (closerRel t) rt.peers)

/-! ### Shared concrete fixtures for witnesses and counterexamples -/

def selfPeer : PeerID := ⟨"self", [0]⟩

def peerA : PeerID := ⟨"addr-a", [1]⟩

def peerB : PeerID := ⟨"addr-b", [2]⟩

def peerC : PeerID := ⟨"addr-c", [3]⟩

def baseTable : RoutingTable := ⟨selfPeer, [peerA, peerB, peerC]⟩

def nullSend : SendHandler := fun _ => some []

def baseService : Service := ⟨false, false, false, baseTable, nullSend⟩

def disabledService : Service := ⟨true, true, true, baseTable, nullSend⟩

def emptyBody (op : Nat) : MessageBody :=
  ⟨DiscoveryServiceID, encodeProto ⟨op, ProtoContent.empty⟩⟩

def mkEnvelope (op : Nat) : Message :=
  ⟨"addr-a", "addr-b", some (emptyBody op)⟩

/-! ### Claim theorems -/

/-- C1: a valid LookupRequest whose category is enabled, dispatched with
resolved sender and resolved target, yields a LookupResponse reply whose
peer sequence is the RoutingTable's nearest peers to the resolved target
(the addressed recipient): length `min(K, N)` for the `N` peers known at
query time and bucket size `K`, ordered by non-decreasing XOR distance to
the target with ties broken by identity-byte order. -/
theorem lookup_request_replies_nearest (s : Service) (m : Message)
    (body : MessageBody) (sender target : PeerID) (pm : ProtoMessage)
    (hbody : m.Body = some body)
    (hsvc : body.Service = DiscoveryServiceID)
    (hsender : s.Routes.LookupRemoteAddress m.Sender = some sender)
    (htarget : s.Routes.LookupRemoteAddress m.Recipient = some target)
    (hdec : decodeProto body.Payload = some pm)
    (hop : pm.Opcode = opCodeLookupRequest)
    (hdis : s.DisableLookup = false) :
    s.ReceiveHandler (some m) =
      (.ok (some (makeMessageBody opCodeLookupResponse
          (ProtoContent.nodes
            ((s.Routes.Update sender).FindClosestPeers target BucketSize)))),
        s.Routes.Update sender) ∧
    decodeProto (makeMessageBody opCodeLookupResponse
        (ProtoContent.nodes
          ((s.Routes.Update sender).FindClosestPeers target BucketSize))).Payload =
      some ⟨opCodeLookupResponse,
        ProtoContent.nodes
          ((s.Routes.Update sender).FindClosestPeers target BucketSize)⟩ ∧
    ((s.Routes.Update sender).FindClosestPeers target BucketSize).length =
      min BucketSize (s.Routes.Update sender).peers.length ∧
    List.Sorted (closerRel target)
      ((s.Routes.Update sender).FindClosestPeers target BucketSize) := by
  refine ⟨?_, ?_, ?_, ?_⟩
  · rw [ReceiveHandler_resolve s m body sender target pm hbody hsvc hsender htarget hdec]
    exact receive_lookup s sender target pm hop hdis
  · exact decodeProto_encode _
  · exact FindClosestPeers_length _ _ _
  · exact FindClosestPeers_sorted _ _ _

theorem lookup_request_replies_nearest_witness :
    baseService.ReceiveHandler (some (mkEnvelope opCodeLookupRequest)) =
      (.ok (some (makeMessageBody opCodeLookupResponse
          (ProtoContent.nodes
            ((baseService.Routes.Update peerA).FindClosestPeers peerB BucketSize)))),
        baseService.Routes.Update peerA) ∧
    decodeProto (makeMessageBody opCodeLookupResponse
        (ProtoContent.nodes
          ((baseService.Routes.Update peerA).FindClosestPeers peerB BucketSize))).Payload =
      some ⟨opCodeLookupResponse,
        ProtoContent.nodes
          ((baseService.Routes.Update peerA).FindClosestPeers peerB BucketSize)⟩ ∧
    ((baseService.Routes.Update peerA).FindClosestPeers peerB BucketSize).length =
      min BucketSize (baseService.Routes.Update peerA).peers.length ∧
    List.Sorted (closerRel peerB)
      ((baseService.Routes.Update peerA).FindClosestPeers peerB BucketSize) :=
  lookup_request_replies_nearest baseService (mkEnvelope opCodeLookupRequest)
    (emptyBody opCodeLookupRequest) peerA peerB ⟨opCodeLookupRequest, ProtoContent.empty⟩
    rfl rfl (by decide) (by decide) (by decide) rfl rfl

/-- C3: a message that passes every validation step but whose decoded
opcode lies outside {Ping, Pong, LookupRequest, LookupResponse} yields no
reply and an unknown-opcode error carrying the offending opcode value. -/
theorem unknown_opcode_errors (s : Service) (m : Message) (body : MessageBody)
    (sender target : PeerID) (pm : ProtoMessage)
    (hbody : m.Body = some body)
    (hsvc : body.Service = DiscoveryServiceID)
    (hsender : s.Routes.LookupRemoteAddress m.Sender = some sender)
    (htarget : s.Routes.LookupRemoteAddress m.Recipient = some target)
    (hdec : decodeProto body.Payload = some pm)
    (h1 : pm.Opcode ≠ opCodePing) (h2 : pm.Opcode ≠ opCodePong)
    (h3 : pm.Opcode ≠ opCodeLookupRequest) (h4 : pm.Opcode ≠ opCodeLookupResponse) :
    (s.ReceiveHandler (some m)).1 = .error (.unknownOpcode pm.Opcode) := by
  rw [ReceiveHandler_resolve s m body sender target pm hbody hsvc hsender htarget hdec,
    receive_default s sender target pm h1 h2 h3]

theorem unknown_opcode_errors_witness :
    (baseService.ReceiveHandler (some (mkEnvelope 99))).1 =
      .error (.unknownOpcode (99 : Nat)) :=
  unknown_opcode_errors baseService (mkEnvelope 99) (emptyBody 99) peerA peerB
    ⟨99, ProtoContent.empty⟩ rfl rfl (by decide) (by decide) (by decide)
    (by decide) (by decide) (by decide) (by decide)

/-- C4: a valid Ping whose category is enabled yields exactly one Pong
reply whose payload is the empty record, no error, and the sender is
refreshed in the RoutingTable as the reply is produced. -/
theorem ping_replies_pong (s : Service) (m : Message) (body : MessageBody)
    (sender target : PeerID) (pm : ProtoMessage)
    (hbody : m.Body = some body)
    (hsvc : body.Service = DiscoveryServiceID)
    (hsender : s.Routes.LookupRemoteAddress m.Sender = some sender)
    (htarget : s.Routes.LookupRemoteAddress m.Recipient = some target)
    (hdec : decodeProto body.Payload = some pm)
    (hop : pm.Opcode = opCodePing)
    (hdis : s.DisablePing = false) :
    s.ReceiveHandler (some m) =
      (.ok (some (makeMessageBody opCodePong ProtoContent.empty)),
        s.Routes.Update sender) ∧
    decodeProto (makeMessageBody opCodePong ProtoContent.empty).Payload =
      some ⟨opCodePong, ProtoContent.empty⟩ := by
  refine ⟨?_, decodeProto_encode _⟩
  rw [ReceiveHandler_resolve s m body sender target pm hbody hsvc hsender htarget hdec]
  exact receive_ping s sender target pm hop hdis

theorem ping_replies_pong_witness :
    baseService.ReceiveHandler (some (mkEnvelope opCodePing)) =
      (.ok (some (makeMessageBody opCodePong ProtoContent.empty)),
        baseService.Routes.Update peerA) ∧
    decodeProto (makeMessageBody opCodePong ProtoContent.empty).Payload =
      some ⟨opCodePong, ProtoContent.empty⟩ :=
  ping_replies_pong baseService (mkEnvelope opCodePing) (emptyBody opCodePing)
    peerA peerB ⟨opCodePing, ProtoContent.empty⟩ rfl rfl (by decide) (by decide)
    (by decide) rfl rfl

/-- C5: a valid message whose opcode's category (Ping, Pong or
LookupRequest) is disabled yields no reply and no error; the sender
refresh still occurs and is the only change to the RoutingTable. -/
theorem disabled_category_refreshes_only (s : Service) (m : Message)
    (body : MessageBody) (sender target : PeerID) (pm : ProtoMessage)
    (hbody : m.Body = some body)
    (hsvc : body.Service = DiscoveryServiceID)
    (hsender : s.Routes.LookupRemoteAddress m.Sender = some sender)
    (htarget : s.Routes.LookupRemoteAddress m.Recipient = some target)
    (hdec : decodeProto body.Payload = some pm)
    (hdis : (pm.Opcode = opCodePing ∧ s.DisablePing = true) ∨
            (pm.Opcode = opCodePong ∧ s.DisablePong = true) ∨
            (pm.Opcode = opCodeLookupRequest ∧ s.DisableLookup = true)) :
    s.ReceiveHandler (some m) = (.ok none, s.Routes.Update sender) := by
  rw [ReceiveHandler_resolve s m body sender target pm hbody hsvc hsender htarget hdec]
  rcases hdis with ⟨hop, hd⟩ | ⟨hop, hd⟩ | ⟨hop, hd⟩ <;>
    simp [Service.receive, hop, hd, opCodePing, opCodePong, opCodeLookupRequest]

theorem disabled_category_refreshes_only_witness :
    disabledService.ReceiveHandler (some (mkEnvelope opCodePing)) =
      (.ok none, disabledService.Routes.Update peerA) :=
  disabled_category_refreshes_only disabledService (mkEnvelope opCodePing)
    (emptyBody opCodePing) peerA peerB ⟨opCodePing, ProtoContent.empty⟩
    rfl rfl (by decide) (by decide) (by decide) (Or.inl ⟨rfl, rfl⟩)

/-- C6: a valid Pong whose category is enabled invokes the lookup engine
on the refreshed table with target = the resolved sender, desired result
count = the bucket size K, and concurrency factor 8; every peer the
lookup returns is upserted into the RoutingTable; no reply and no error
are returned. -/
theorem pong_triggers_lookup (s : Service) (m : Message) (body : MessageBody)
    (sender target : PeerID) (pm : ProtoMessage)
    (hbody : m.Body = some body)
    (hsvc : body.Service = DiscoveryServiceID)
    (hsender : s.Routes.LookupRemoteAddress m.Sender = some sender)
    (htarget : s.Routes.LookupRemoteAddress m.Recipient = some target)
    (hdec : decodeProto body.Payload = some pm)
    (hop : pm.Opcode = opCodePong)
    (hdis : s.DisablePong = false) :
    s.ReceiveHandler (some m) =
      (.ok none,
        (FindNode (s.Routes.Update sender) s.sendHandler sender BucketSize 8).foldl
          (fun rt p => rt.Update p) (s.Routes.Update sender)) := by
  rw [ReceiveHandler_resolve s m body sender target pm hbody hsvc hsender htarget hdec]
  exact receive_pong s sender target pm hop hdis

theorem pong_triggers_lookup_witness :
    baseService.ReceiveHandler (some (mkEnvelope opCodePong)) =
      (.ok none,
        (FindNode (baseService.Routes.Update peerA) baseService.sendHandler peerA
            BucketSize 8).foldl
          (fun rt p => rt.Update p) (baseService.Routes.Update peerA)) :=
  pong_triggers_lookup baseService (mkEnvelope opCodePong) (emptyBody opCodePong)
    peerA peerB ⟨opCodePong, ProtoContent.empty⟩ rfl rfl (by decide) (by decide)
    (by decide) rfl rfl

/-- C9: an otherwise-valid message whose decoded opcode is
LookupResponse — a member of the protocol's opcode set — has no matching
dispatch arm: the entry point refreshes the sender and then returns the
unknown-opcode error naming `opCodeLookupResponse`, rather than silently
consuming the message. -/
theorem lookup_response_hits_default (s : Service) (m : Message)
    (body : MessageBody) (sender target : PeerID) (pm : ProtoMessage)
    (hbody : m.Body = some body)
    (hsvc : body.Service = DiscoveryServiceID)
    (hsender : s.Routes.LookupRemoteAddress m.Sender = some sender)
    (htarget : s.Routes.LookupRemoteAddress m.Recipient = some target)
    (hdec : decodeProto body.Payload = some pm)
    (hop : pm.Opcode = opCodeLookupResponse) :
    s.ReceiveHandler (some m) =
      (.error (.unknownOpcode opCodeLookupResponse), s.Routes.Update sender) := by
  rw [ReceiveHandler_resolve s m body sender target pm hbody hsvc hsender htarget hdec,
    receive_default s sender target pm (by rw [hop]; decide) (by rw [hop]; decide)
      (by rw [hop]; decide), hop]

theorem lookup_response_hits_default_witness :
    baseService.ReceiveHandler (some (mkEnvelope opCodeLookupResponse)) =
      (.error (.unknownOpcode opCodeLookupResponse),
        baseService.Routes.Update peerA) :=
  lookup_response_hits_default baseService (mkEnvelope opCodeLookupResponse)
    (emptyBody opCodeLookupResponse) peerA peerB
    ⟨opCodeLookupResponse, ProtoContent.empty⟩ rfl rfl (by decide) (by decide)
    (by decide) rfl

/-- C7: the disconnect notification removes a peer that is currently a
member of the RoutingTable (its existence check becomes false), and is a
no-op with no table change for a peer that is not a member; the
operation is total, so no error can arise in either case. -/
theorem peer_disconnect_removes (s : Service) (p : PeerID) :
    (s.Routes.PeerExists p = true → (s.PeerDisconnect p).PeerExists p = false) ∧
    (s.Routes.PeerExists p = false → s.PeerDisconnect p = s.Routes) := by
  constructor
  · intro h
    simp only [Service.PeerDisconnect, h, if_true]
    simp [RoutingTable.PeerExists, RoutingTable.RemovePeer, List.any_eq_true,
      List.mem_filter]
  · intro h
    simp [Service.PeerDisconnect, h]

theorem peer_disconnect_removes_witness :
    (baseService.PeerDisconnect peerA).PeerExists peerA = false ∧
    baseService.PeerDisconnect ⟨"addr-z", [9]⟩ = baseService.Routes :=
  ⟨(peer_disconnect_removes baseService peerA).1 (by decide),
   (peer_disconnect_removes baseService ⟨"addr-z", [9]⟩).2 (by decide)⟩

/-- C10: every reply body the entry point produces carries the discovery
service tag in its `Service` field, so a reply sent back over the
transport would itself pass the entry point's service-tag validation. -/
theorem replies_carry_service_tag (s : Service) (msg : Option Message)
    (body : MessageBody) (h : (s.ReceiveHandler msg).1 = .ok (some body)) :
    body.Service = DiscoveryServiceID := by
  unfold Service.ReceiveHandler Service.receive at h
  repeat' split at h
  all_goals try simp at h
  all_goals (subst h; rfl)

theorem replies_carry_service_tag_witness :
    (makeMessageBody opCodePong ProtoContent.empty).Service = DiscoveryServiceID :=
  replies_carry_service_tag baseService (some (mkEnvelope opCodePing))
    (makeMessageBody opCodePong ProtoContent.empty) (by decide)

/-- C2 as stated is false: the unknown-opcode error is returned only
after the unconditional sender refresh.  At a concrete table holding
peers A, B, C, a fully valid message from A carrying opcode 99 makes the
entry point return the unknown-opcode error while the refresh has moved
A to the most-recent position, so the RoutingTable is not left
unchanged. -/
theorem error_after_refresh_counterexample :
    (baseService.ReceiveHandler (some (mkEnvelope 99))).1 =
      Except.error (DiscoveryError.unknownOpcode 99) ∧
    (baseService.ReceiveHandler (some (mkEnvelope 99))).2 ≠ baseService.Routes := by
  decide

/-- C2 (amended): every validation failure of the entry point that
precedes dispatch (corrupt message, missing payload, unresolved
sender/recipient, decode failure) occurs strictly before any state
mutation and leaves the RoutingTable unchanged; the unknown-opcode
error, by contrast, is returned only after the unconditional sender
refresh, which is the sole mutation on that path. -/
theorem errors_mutate_only_by_refresh (s : Service) (msg : Option Message)
    (e : DiscoveryError) (rt : RoutingTable)
    (h : s.ReceiveHandler msg = (.error e, rt)) :
    rt = s.Routes ∨
    ∃ m sender op, msg = some m ∧
      s.Routes.LookupRemoteAddress m.Sender = some sender ∧
      e = .unknownOpcode op ∧ rt = s.Routes.Update sender := by
  unfold Service.ReceiveHandler Service.receive at h
  repeat' split at h
  all_goals
    first
      | (left; rw [Prod.mk.injEq] at h; exact h.2.symm)
      | (right
         rw [Prod.mk.injEq] at h
         obtain ⟨h1, h2⟩ := h
         exact ⟨_, _, _, rfl, by assumption,
           (Except.error.inj h1).symm, h2.symm⟩)
      | simp at h

theorem errors_mutate_only_by_refresh_witness :
    (baseService.ReceiveHandler (some (mkEnvelope 99))).2 = baseService.Routes ∨
    ∃ m sender op, (some (mkEnvelope 99) : Option Message) = some m ∧
      baseService.Routes.LookupRemoteAddress m.Sender = some sender ∧
      DiscoveryError.unknownOpcode 99 = .unknownOpcode op ∧
      (baseService.ReceiveHandler (some (mkEnvelope 99))).2 =
        baseService.Routes.Update sender :=
  errors_mutate_only_by_refresh baseService (some (mkEnvelope 99))
    (.unknownOpcode 99) (baseService.ReceiveHandler (some (mkEnvelope 99))).2
    (by decide)

/-- C8 as stated is false: a Pong from a previously-unknown sender never
reaches dispatch, because sender resolution through the RoutingTable
fails first.  At a concrete table holding peers A, B, C, a Pong from the
unknown sender S = ("addr-s", [7]) makes the entry point return the
unresolved-sender error, and S is still absent from the table
afterwards. -/
theorem pong_unknown_sender_counterexample :
    (baseService.ReceiveHandler
        (some ⟨"addr-s", "addr-b", some (emptyBody opCodePong)⟩)).1 =
      Except.error DiscoveryError.unresolvedSender ∧
    (baseService.ReceiveHandler
        (some ⟨"addr-s", "addr-b", some (emptyBody opCodePong)⟩)).2.PeerExists
      ⟨"addr-s", [7]⟩ = false := by
  decide

/-- C8 (amended): a Pong from a sender whose address the RoutingTable
cannot resolve is rejected before dispatch; when the sender resolves to
a known remote peer S (Pong enabled), after the entry point processes
the message `PeerExists S` holds, a lookup is triggered, and every peer
the lookup returns — other than the local identity, which the table
never holds — is present in the RoutingTable. -/
theorem pong_known_sender_bootstraps (s : Service) (m : Message)
    (body : MessageBody) (sender target : PeerID) (pm : ProtoMessage)
    (hbody : m.Body = some body)
    (hsvc : body.Service = DiscoveryServiceID)
    (hsender : s.Routes.LookupRemoteAddress m.Sender = some sender)
    (htarget : s.Routes.LookupRemoteAddress m.Recipient = some target)
    (hdec : decodeProto body.Payload = some pm)
    (hop : pm.Opcode = opCodePong)
    (hdis : s.DisablePong = false)
    (hself : sender.Id ≠ s.Routes.self.Id) :
    (s.ReceiveHandler (some m)).2.PeerExists sender = true ∧
    ∀ p ∈ FindNode (s.Routes.Update sender) s.sendHandler sender BucketSize 8,
      p.Id ≠ s.Routes.self.Id → (s.ReceiveHandler (some m)).2.PeerExists p = true := by
  rw [ReceiveHandler_resolve s m body sender target pm hbody hsvc hsender htarget hdec,
    receive_pong s sender target pm hop hdis]
  constructor
  · exact RoutingTable.PeerExists_foldl_Update_of _ _ _
      (RoutingTable.PeerExists_Update_self s.Routes sender hself)
  · intro p hp hpself
    exact RoutingTable.PeerExists_foldl_Update_mem _ _ _ hp
      (by rw [RoutingTable.self_Update]; exact hpself)

theorem pong_known_sender_bootstraps_witness :
    (baseService.ReceiveHandler (some (mkEnvelope opCodePong))).2.PeerExists peerA =
      true ∧
    ∀ p ∈ FindNode (baseService.Routes.Update peerA) baseService.sendHandler peerA
        BucketSize 8,
      p.Id ≠ baseService.Routes.self.Id →
        (baseService.ReceiveHandler (some (mkEnvelope opCodePong))).2.PeerExists p =
          true :=
  pong_known_sender_bootstraps baseService (mkEnvelope opCodePong)
    (emptyBody opCodePong) peerA peerB ⟨opCodePong, ProtoContent.empty⟩ rfl rfl
    (by decide) (by decide) (by decide) rfl rfl (by decide)

end Noise
